import Mathlib

/-!
Verification of the `currying` Rust crate (src/curried.rs, src/curry.rs,
src/rcurry.rs, src/concat_args.rs, src/lib.rs).

Rust tuples used as argument lists (`Tuple`) are embedded as heterogeneous
lists indexed by their list of element types.  Fn-trait implementations are
embedded dictionary-style: the `FnOnce` implementation of a wrapped callable
`F` over argument list `A` with output `ρ` is a function `F → HList A → ρ`;
the `FnMut` implementation threads the callable's captured state, so it is a
function `F → HList A → F × ρ`.  Rust references `&F` / `&mut F` (stored by
the non-consuming binding methods) are embedded as single-field wrappers.
-/

set_option autoImplicit false

namespace Currying

universe u

/-- Heterogeneous argument list: embeds a Rust tuple viewed as an ordered,
fixed-length, heterogeneous sequence of typed values, indexed by its list of
element types. -/
inductive HList : List Type → Type 1 where
  | nil : HList []
  | cons {α : Type} {ts : List Type} : α → HList ts → HList (α :: ts)

/-- Head of a nonempty heterogeneous list. -/
def HList.head {α : Type} {ts : List Type} : HList (α :: ts) → α
  | HList.cons x _ => x

/-- Two-segment concatenation of heterogeneous lists; embeds the pairwise
tuple-concatenation primitive the crate consumes from the external `tupleops`
crate. -/
def HList.append : {ts us : List Type} → HList ts → HList us → HList (ts ++ us)
  | _, _, HList.nil, ys => ys
  | _, _, HList.cons x xs, ys => HList.cons x (HList.append xs ys)

/-- Three-segment concatenation: embeds
`tupleops::concat_many((left, mid, right))` as used by every call discipline
in src/curried.rs, and the flattening bodies `(l, t0, ..., r)` generated by
`impl_concat_args!` in src/concat_args.rs. -/
def concat3 {L M R : List Type} (l : HList L) (m : HList M) (r : HList R) :
    HList (L ++ (M ++ R)) :=
  HList.append l (HList.append m r)

/-- Forgets the type indexing: the ordered list of type-tagged element values
of a heterogeneous list, used to state element-order properties. -/
def HList.toList : {ts : List Type} → HList ts → List ((α : Type) × α)
  | _, HList.nil => []
  | _, HList.cons x xs => ⟨_, x⟩ :: HList.toList xs

/-- Embeds the Rust `Copy` bound: a marker capability for duplicable value
types. -/
class Copy (α : Type) : Prop where
  dup : True

instance : Copy Nat := ⟨trivial⟩

instance : Copy Int := ⟨trivial⟩

instance : Copy Bool := ⟨trivial⟩

/-- Embeds the bound `LX: Tuple + Copy` of src/curried.rs: every element type
of the argument-type list is `Copy`. -/
class CopyAll (ts : List Type) : Prop where
  all : ∀ t, t ∈ ts → Copy t

instance : CopyAll [] :=
  ⟨fun t ht => absurd ht (List.not_mem_nil t)⟩

instance {t : Type} {ts : List Type} [ht : Copy t] [hts : CopyAll ts] :
    CopyAll (t :: ts) :=
  ⟨fun s hs => by
    rcases List.mem_cons.mp hs with h | h
    · exact h ▸ ht
    · exact hts.all s h⟩

/-- Embeds `struct Curried<LX, RX, F>` (src/curried.rs): a left argument
segment, a right argument segment and the wrapped callable. -/
structure Curried (L R : List Type) (F : Type u) where
  args_left : HList L
  args_right : HList R
  func : F

/-- Embeds `Curried::new`. -/
def Curried.new {L R : List Type} {F : Type u}
    (args_left : HList L) (args_right : HList R) (func : F) : Curried L R F :=
  ⟨args_left, args_right, func⟩

/-- Embeds `Curried::curry`: `Self::new((arg,), (), func)`. -/
def Curried.curry {C : Type} {F : Type u} (func : F) (arg : C) :
    Curried [C] [] F :=
  Curried.new (HList.cons arg HList.nil) HList.nil func

/-- Embeds `Curried::rcurry`: `Self::new((), (arg,), func)`. -/
def Curried.rcurry {C : Type} {F : Type u} (func : F) (arg : C) :
    Curried [] [C] F :=
  Curried.new HList.nil (HList.cons arg HList.nil) func

/-- Embeds `impl FnOnce<X> for Curried<LX, RX, F>` (src/curried.rs lines
80-97).  `callF` is the `FnOnce` implementation of the wrapped callable `F`;
the wrapper and the supplied middle segment are consumed, one three-segment
concatenation `(args_left, args, args_right)` is performed and the wrapped
callable's result is returned unmodified. -/
def Curried.call_once {L X R : List Type} {F : Type u} {ρ : Type}
    (callF : F → HList (L ++ (X ++ R)) → ρ) (c : Curried L R F)
    (args : HList X) : ρ :=
  callF c.func (concat3 c.args_left args c.args_right)

/-- Embeds `impl FnMut<X> for Curried<LX, RX, F>` (src/curried.rs lines
99-113), which requires `LX: Copy` and `RX: Copy`.  The wrapper is borrowed
mutably, modeled by also returning the updated wrapper: the stored segments
are copied into a fresh three-segment concatenation and the call is forwarded
to the wrapped callable's `call_mut`, which may update state captured by the
callable (modeled by `F` returning its updated value).  Only the `func` field
can change; the stored segments are merely copied. -/
def Curried.call_mut {L X R : List Type} {F : Type u} {ρ : Type}
    [CopyAll L] [CopyAll R]
    (callF : F → HList (L ++ (X ++ R)) → F × ρ) (c : Curried L R F)
    (args : HList X) : Curried L R F × ρ :=
  let fr := callF c.func (concat3 c.args_left args c.args_right)
  (Curried.new c.args_left c.args_right fr.1, fr.2)

/-- Embeds `impl Fn<X> for Curried<LX, RX, F>` (src/curried.rs lines
115-129), which requires `LX: Copy` and `RX: Copy`.  The wrapper is borrowed
immutably; the stored segments are copied into a fresh three-segment
concatenation and the call is forwarded to the wrapped callable's `call`. -/
def Curried.call {L X R : List Type} {F : Type u} {ρ : Type}
    [CopyAll L] [CopyAll R]
    (callF : F → HList (L ++ (X ++ R)) → ρ) (c : Curried L R F)
    (args : HList X) : ρ :=
  callF c.func (concat3 c.args_left args c.args_right)

/-- The `FnOnce` implementation of a plain Rust function value or
state-free closure: application. -/
def fnOnce {ts : List Type} {ρ : Type} (f : HList ts → ρ) (args : HList ts) :
    ρ :=
  f args

/-- Embeds a Rust shared reference `&F`, as stored in the wrapper returned by
the default methods `Curry::curry` and `RCurry::rcurry` (which bind through
`&self`). -/
structure Ref (F : Type u) : Type u where
  get : F

/-- Embeds a Rust mutable reference `&mut F`, as stored in the wrapper
returned by `Curry::curry_mut` and `RCurry::rcurry_mut`. -/
structure MutRef (F : Type u) : Type u where
  get : F

/-- Embeds the `FnOnce`/`Fn` implementation of `&F` for `F: Fn`: calling
through a shared reference calls the referent, which is left unchanged. -/
def Ref.call {F : Type u} {A : List Type} {ρ : Type}
    (callF : F → HList A → ρ) (r : Ref F) (args : HList A) : ρ :=
  callF r.get args

/-- Embeds the `FnMut` implementation of `&mut F` for `F: FnMut`: calling
through a mutable reference calls the referent and threads its updated
state. -/
def MutRef.call_mut {F : Type u} {A : List Type} {ρ : Type}
    (callF : F → HList A → F × ρ) (r : MutRef F) (args : HList A) :
    MutRef F × ρ :=
  let fr := callF r.get args
  (MutRef.mk fr.1, fr.2)

/-- Embeds `Curry::curry_once` of the blanket `impl Curry<C> for F`
(src/curry.rs lines 121-140): consumes the callable and returns
`Curried::curry(self, arg)`, i.e. a wrapper owning the callable with left
segment `(arg,)` and empty right segment. -/
def Curry.curry_once {C : Type} {F : Type u} (f : F) (arg : C) :
    Curried [C] [] F :=
  Curried.curry f arg

/-- Embeds the default method `Curry::curry` (src/curry.rs lines 71-75):
`(&self).curry_once(arg)` — binds through a shared reference, so the returned
wrapper's wrapped-callable type is `&F` and the original callable is not
consumed. -/
def Curry.curry {C : Type} {F : Type u} (f : F) (arg : C) :
    Curried [C] [] (Ref F) :=
  Curry.curry_once (Ref.mk f) arg

/-- Embeds the default method `Curry::curry_mut` (src/curry.rs lines 66-70):
`(&mut self).curry_once(arg)` — binds through a mutable reference. -/
def Curry.curry_mut {C : Type} {F : Type u} (f : F) (arg : C) :
    Curried [C] [] (MutRef F) :=
  Curry.curry_once (MutRef.mk f) arg

/-- Embeds `RCurry::rcurry_once` of the blanket `impl RCurry<C> for F`
(src/rcurry.rs lines 121-140): consumes the callable and returns
`Curried::rcurry(self, arg)`, i.e. a wrapper owning the callable with empty
left segment and right segment `(arg,)`. -/
def RCurry.rcurry_once {C : Type} {F : Type u} (f : F) (arg : C) :
    Curried [] [C] F :=
  Curried.rcurry f arg

/-- Embeds the default method `RCurry::rcurry` (src/rcurry.rs lines 71-75):
`(&self).rcurry_once(arg)`. -/
def RCurry.rcurry {C : Type} {F : Type u} (f : F) (arg : C) :
    Curried [] [C] (Ref F) :=
  RCurry.rcurry_once (Ref.mk f) arg

/-- Embeds the default method `RCurry::rcurry_mut` (src/rcurry.rs lines
66-70): `(&mut self).rcurry_once(arg)`. -/
def RCurry.rcurry_mut {C : Type} {F : Type u} (f : F) (arg : C) :
    Curried [] [C] (MutRef F) :=
  RCurry.rcurry_once (MutRef.mk f) arg

/-- Embeds the closure of the `test_mut` test in src/lib.rs: it captures a
counter `i` mutably and its body is `{ i += j; i }`.  The carrier of the
closure is its captured counter; its `FnMut` implementation returns the
updated counter together with the result. -/
def addCounter : Int → HList [Int] → Int × Int :=
  fun i args => (i + args.head, i + args.head)

/-- Repeatedly invokes a wrapper through the mutating discipline with the
same supplied middle segment, threading the wrapper and collecting the
outputs in call order; embeds the loop of the `test_mut` test in
src/lib.rs. -/
def iterateMut {L X R : List Type} {F : Type u} {ρ : Type}
    [CopyAll L] [CopyAll R]
    (callF : F → HList (L ++ (X ++ R)) → F × ρ) (c : Curried L R F)
    (args : HList X) : Nat → Curried L R F × List ρ
  | 0 => (c, [])
  | Nat.succ k =>
      let p := Curried.call_mut callF c args
      let q := iterateMut callF p.1 args k
      (q.1, p.2 :: q.2)

/-- Repeatedly invokes a bare callable through its `FnMut` implementation on
one fixed, already-concatenated argument list, threading only the callable's
state. -/
def funcIterate {A : List Type} {F : Type u} {ρ : Type}
    (callF : F → HList A → F × ρ) (f : F) (args : HList A) :
    Nat → F × List ρ
  | 0 => (f, [])
  | Nat.succ k =>
      let p := callF f args
      let q := funcIterate callF p.1 args k
      (q.1, p.2 :: q.2)

/-- The 3-parameter integer addition callable of the tests and examples:
`|x, y, z| x + y + z`. -/
def add3 : HList [Int, Int, Int] → Int
  | HList.cons x (HList.cons y (HList.cons z HList.nil)) => x + y + z

/-- Transcribed from src/concat_args.rs lines 63-66: the identifier list of
the feature `"32"` invocation of `impl_concat_args!`.  (`_15` does not occur
in the source list.) -/
def identList32 : List String :=
  ["_3", "_4", "_5", "_6", "_7", "_8", "_9", "_10", "_11", "_12", "_13",
   "_14", "_16", "_17", "_18", "_19", "_20", "_21", "_22", "_23", "_24",
   "_25", "_26", "_27", "_28", "_29", "_30", "_31", "_32"]

/-- Middle-tuple lengths of the `ConcatArgs` impls generated by
`impl_concat_args!` (src/concat_args.rs lines 20-48) for a given identifier
list: the macro emits impls whose middle tuple has one type parameter per
identifier, then recurses on the tail of the list, bottoming out at the empty
list — so exactly the lengths `0` through the list's length are generated. -/
def generatedMidLens (idents : List String) : List Nat :=
  List.range (idents.length + 1)

/-- Segment-length shapes `(left, mid, right)` of the generated `ConcatArgs`
impls: for each generated middle length `m`, the macro emits impls for
`((L,), mid, (R,))`, `((L,), mid, ())` and `((), mid, (R,))`. -/
def generatedShapes (idents : List String) : List (Nat × Nat × Nat) :=
  (generatedMidLens idents).flatMap (fun m => [(1, m, 1), (1, m, 0), (0, m, 1)])

/-- Total arities (sums of the three segment lengths) covered by the
generated `ConcatArgs` impls for a given identifier list. -/
def generatedTotals (idents : List String) : List Nat :=
  (generatedShapes idents).map (fun s => s.1 + s.2.1 + s.2.2)

/-- Transcribed from src/curry.rs line 101: under feature `const` the blanket
`Curry` implementation is declared `impl const Curry<C> for F`, so left
binding is usable in Rust constant evaluation. -/
def curryImplIsConst : Bool := true

/-- Transcribed from src/rcurry.rs line 101: under feature `const` the
blanket `RCurry` implementation is declared `impl const RCurry<C> for F`. -/
def rcurryImplIsConst : Bool := true

/-- Transcribed from src/curried.rs line 80: the `FnOnce` implementation for
`Curried` is declared `impl<LX, X, RX, F> /*const*/ FnOnce<X>` — the `const`
modifier is commented out, so invoking a `Curried` wrapper is not usable in
Rust constant evaluation. -/
def fnOnceImplIsConst : Bool := false

/-- Transcribed from src/curried.rs line 99: the `FnMut` implementation's
`const` modifier is likewise commented out. -/
def fnMutImplIsConst : Bool := false

/-- Transcribed from src/curried.rs line 115: the `Fn` implementation's
`const` modifier is likewise commented out. -/
def fnImplIsConst : Bool := false

/-- Concrete read-only callable with the same carrier and argument list as
the curried counter closure, returning the captured counter unchanged. -/
def viewCounter : MutRef Int → HList [Int] → Int :=
  fun m _ => m.get

/-! Theorems -/

/-- Flattening commutes with two-segment concatenation. -/
theorem HList.toList_append {ts us : List Type} (xs : HList ts)
    (ys : HList us) :
    (HList.append xs ys).toList = xs.toList ++ ys.toList := by
  induction xs with
  | nil => rfl
  | cons x xs ih => simp [HList.append, HList.toList, ih]

/-- C5: the three-segment concatenation yields the elements of the left
segment, then those of the middle segment, then those of the right segment,
in order; any segment may be empty, and concatenating three empty segments
yields the empty sequence. -/
theorem concat3_toList_order :
    (∀ (L M R : List Type) (l : HList L) (m : HList M) (r : HList R),
        (concat3 l m r).toList = l.toList ++ m.toList ++ r.toList)
    ∧ concat3 HList.nil HList.nil HList.nil = HList.nil := by
  refine ⟨fun L M R l m r => ?_, rfl⟩
  simp [concat3, HList.toList_append, List.append_assoc]

/-- C1: for a 3-parameter callable `f`, invoking the wrapper `f.curry(x)`
with the remaining two arguments performs the three-segment concatenation
`(x,) ++ (y, z) ++ ()` and returns the wrapped callable's result unmodified:
`f.curry(x)(y, z) = f(x, y, z)`. -/
theorem curry_apply_eq {α β γ ρ : Type} (f : HList [α, β, γ] → ρ)
    (x : α) (y : β) (z : γ) :
    Curried.call_once (Ref.call fnOnce) (Curry.curry f x)
        (HList.cons y (HList.cons z HList.nil))
      = f (HList.cons x (HList.cons y (HList.cons z HList.nil))) := rfl

/-- C2: repeated left binding nests wrappers, and the observable argument
order is the chronological binding order followed by the call-time-supplied
arguments: `f.curry(x).curry(y)(z) = f(x, y, z)`. -/
theorem curry_curry_apply_eq {α β γ ρ : Type} (f : HList [α, β, γ] → ρ)
    (x : α) (y : β) (z : γ) :
    Curried.call_once (Ref.call (Curried.call_once (Ref.call fnOnce)))
        (Curry.curry (Curry.curry f x) y) (HList.cons z HList.nil)
      = f (HList.cons x (HList.cons y (HList.cons z HList.nil))) := rfl

/-- C3: repeated right binding places the bound values after the call-time
supplied arguments in reverse chronological binding order:
`f.rcurry(z).rcurry(y)(x) = f(x, y, z)`. -/
theorem rcurry_rcurry_apply_eq {α β γ ρ : Type} (f : HList [α, β, γ] → ρ)
    (x : α) (y : β) (z : γ) :
    Curried.call_once (Ref.call (Curried.call_once (Ref.call fnOnce)))
        (RCurry.rcurry (RCurry.rcurry f z) y) (HList.cons x HList.nil)
      = f (HList.cons x (HList.cons y (HList.cons z HList.nil))) := rfl

/-- C4: left and right binding mix freely on the same base callable:
`f.curry(x).rcurry(z)(y) = f(x, y, z)`; concretely, for
`f = |a, b, c| a + b + c` with `x = 1, y = 2, z = 3`, both `f.curry(1)(2, 3)`
and `f.curry(1).rcurry(3)(2)` return `6`. -/
theorem curry_rcurry_mix_eq :
    (∀ (α β γ ρ : Type) (f : HList [α, β, γ] → ρ) (x : α) (y : β) (z : γ),
        Curried.call_once (Ref.call (Curried.call_once (Ref.call fnOnce)))
            (RCurry.rcurry (Curry.curry f x) z) (HList.cons y HList.nil)
          = f (HList.cons x (HList.cons y (HList.cons z HList.nil))))
    ∧ Curried.call_once (Ref.call fnOnce) (Curry.curry add3 1)
        (HList.cons 2 (HList.cons 3 HList.nil)) = 6
    ∧ Curried.call_once (Ref.call (Curried.call_once (Ref.call fnOnce)))
        (RCurry.rcurry (Curry.curry add3 1) 3) (HList.cons 2 HList.nil)
        = 6 :=
  ⟨fun _ _ _ _ _ _ _ _ => rfl, rfl, rfl⟩

/-- Iterating the mutating call on the counter wrapper from state `i` yields
the final state `i + k` and the outputs `i + 1, …, i + k` in order. -/
theorem iterateMut_addCounter (k : Nat) (i : Int) :
    iterateMut (MutRef.call_mut addCounter)
        (Curried.new (HList.cons (1 : Int) HList.nil) HList.nil (MutRef.mk i))
        HList.nil k
      = (Curried.new (HList.cons (1 : Int) HList.nil) HList.nil
           (MutRef.mk (i + k)),
         (List.range k).map (fun t : Nat => i + t + 1)) := by
  induction k generalizing i with
  | zero => simp [iterateMut]
  | succ k ih =>
      have hstep : iterateMut (MutRef.call_mut addCounter)
          (Curried.new (HList.cons (1 : Int) HList.nil) HList.nil
            (MutRef.mk i)) HList.nil (k + 1)
          = ((iterateMut (MutRef.call_mut addCounter)
              (Curried.new (HList.cons (1 : Int) HList.nil) HList.nil
                (MutRef.mk (i + 1))) HList.nil k).1,
             (i + 1) :: (iterateMut (MutRef.call_mut addCounter)
              (Curried.new (HList.cons (1 : Int) HList.nil) HList.nil
                (MutRef.mk (i + 1))) HList.nil k).2) := rfl
      have hi : i + 1 + (k : Int) = i + ((k : Nat) + 1 : Nat) := by
        push_cast
        ring
      rw [hstep, ih, List.range_succ_eq_map]
      simp only [Prod.mk.injEq, List.map_cons, List.map_map, List.cons.injEq,
        Nat.cast_zero, add_zero]
      refine ⟨by rw [hi], trivial, ?_⟩
      refine List.map_congr_left (fun t _ => ?_)
      simp only [Function.comp]
      push_cast
      ring

/-- C6: under the repeatable-mutating discipline, the wrapper obtained by
`curry_mut` with bound value `n = 1` over the counter closure starting at
`0` returns, over `k` invocations, the sequence `1, 2, …, k` (the i-th
invocation returns `i`). -/
theorem curry_mut_counter_seq (k : Nat) :
    (iterateMut (MutRef.call_mut addCounter)
        (Curry.curry_mut (0 : Int) (1 : Int)) HList.nil k).2
      = (List.range k).map (fun t : Nat => (t : Int) + 1) := by
  have h : Curry.curry_mut (0 : Int) (1 : Int)
      = Curried.new (HList.cons (1 : Int) HList.nil) HList.nil
          (MutRef.mk (0 : Int)) := rfl
  rw [h, iterateMut_addCounter]
  simp

/-- Iterating the mutating call on any wrapper equals iterating the wrapped
callable alone on the one concatenation of the original stored segments with
the supplied middle segment: every iteration rebuilds the same fresh argument
list from the unchanged stored segments. -/
theorem iterateMut_eq_funcIterate {L X R : List Type} {F : Type u} {ρ : Type}
    [CopyAll L] [CopyAll R]
    (callF : F → HList (L ++ (X ++ R)) → F × ρ)
    (l : HList L) (r : HList R) (f : F) (args : HList X) (k : Nat) :
    iterateMut callF (Curried.new l r f) args k
      = (Curried.new l r (funcIterate callF f (concat3 l args r) k).1,
         (funcIterate callF f (concat3 l args r) k).2) := by
  induction k generalizing f with
  | zero => rfl
  | succ k ih =>
      simp only [iterateMut, funcIterate, Curried.call_mut, Curried.new]
        at ih ⊢
      rw [ih]

/-- C7: the repeatable disciplines carry the `Copy` bounds of the source's
`FnMut`/`Fn` impls on the left and right segment element types; every such
invocation rebuilds a fresh concatenated argument list from copies of the
stored segments, so after any number of mutating calls the wrapper's
`args_left` and `args_right` are unchanged, the outputs coincide with
iterating the wrapped callable alone on the fixed concatenation, and a
read-only call forwards the fresh concatenation to the wrapped callable. -/
theorem repeatable_calls_preserve_args {L X R : List Type} {F : Type u}
    {ρ : Type} [CopyAll L] [CopyAll R]
    (callF : F → HList (L ++ (X ++ R)) → F × ρ)
    (callFn : F → HList (L ++ (X ++ R)) → ρ)
    (c : Curried L R F) (args : HList X) (k : Nat) :
    ((iterateMut callF c args k).1.args_left = c.args_left
      ∧ (iterateMut callF c args k).1.args_right = c.args_right)
    ∧ (iterateMut callF c args k).2
        = (funcIterate callF c.func (concat3 c.args_left args c.args_right)
            k).2
    ∧ Curried.call callFn c args
        = callFn c.func (concat3 c.args_left args c.args_right) := by
  have hc : c = Curried.new c.args_left c.args_right c.func := rfl
  rw [hc, iterateMut_eq_funcIterate]
  exact ⟨⟨rfl, rfl⟩, rfl, rfl⟩

/-- Witness for C7 at a concrete wrapper: left segment `(7,)`, empty right
segment, state `0`, three mutating calls and one read-only call. -/
theorem repeatable_calls_preserve_args_witness :
    ((iterateMut (MutRef.call_mut addCounter)
        (Curry.curry_mut (0 : Int) (1 : Int)) HList.nil 3).1.args_left
        = (Curry.curry_mut (0 : Int) (1 : Int)).args_left
      ∧ (iterateMut (MutRef.call_mut addCounter)
          (Curry.curry_mut (0 : Int) (1 : Int)) HList.nil 3).1.args_right
        = (Curry.curry_mut (0 : Int) (1 : Int)).args_right)
    ∧ (iterateMut (MutRef.call_mut addCounter)
        (Curry.curry_mut (0 : Int) (1 : Int)) HList.nil 3).2
        = (funcIterate (MutRef.call_mut addCounter)
            (Curry.curry_mut (0 : Int) (1 : Int)).func
            (concat3 (Curry.curry_mut (0 : Int) (1 : Int)).args_left
              HList.nil (Curry.curry_mut (0 : Int) (1 : Int)).args_right)
            3).2
    ∧ Curried.call viewCounter
        (Curry.curry_mut (0 : Int) (1 : Int)) HList.nil
        = viewCounter (Curry.curry_mut (0 : Int) (1 : Int)).func
            (concat3 (Curry.curry_mut (0 : Int) (1 : Int)).args_left
              HList.nil
              (Curry.curry_mut (0 : Int) (1 : Int)).args_right) := by
  have h := repeatable_calls_preserve_args (MutRef.call_mut addCounter)
    viewCounter (Curry.curry_mut (0 : Int) (1 : Int)) HList.nil 3
  exact h

/-- C8 (counterexample): it is not the case that every operation, binding
and invocation alike, is declared usable in Rust constant evaluation: the
`Curry` and `RCurry` blanket impls are `impl const`, but the `FnOnce`,
`FnMut` and `Fn` impls for `Curried` are not (their `const` modifiers are
commented out in src/curried.rs), so the trailing invocation of a currying
chain is not const-usable. -/
theorem const_usability_counterexample :
    ((curryImplIsConst && rcurryImplIsConst)
      && ((fnOnceImplIsConst && fnMutImplIsConst) && fnImplIsConst))
      = false := by
  decide

/-- C8 (amended): binding via `curry` and `rcurry` is const-usable while
wrapper invocation is not, and the fully bound chain
`f.curry(X).rcurry(Z).curry(Y)`, when invoked with no remaining arguments,
evaluates to `f(X, Y, Z)`; concretely, for `f = |a, b, c| a + b + c` with
`X = 1, Y = 2, Z = 3` it evaluates to `6`. -/
theorem const_binding_chain_eq :
    (curryImplIsConst = true ∧ rcurryImplIsConst = true
      ∧ fnOnceImplIsConst = false ∧ fnMutImplIsConst = false
      ∧ fnImplIsConst = false)
    ∧ (∀ (α β γ ρ : Type) (f : HList [α, β, γ] → ρ) (x : α) (y : β) (z : γ),
        Curried.call_once
            (Ref.call (Curried.call_once
              (Ref.call (Curried.call_once (Ref.call fnOnce)))))
            (Curry.curry (RCurry.rcurry (Curry.curry f x) z) y) HList.nil
          = f (HList.cons x (HList.cons y (HList.cons z HList.nil))))
    ∧ Curried.call_once
        (Ref.call (Curried.call_once
          (Ref.call (Curried.call_once (Ref.call fnOnce)))))
        (Curry.curry (RCurry.rcurry (Curry.curry add3 1) 3) 2) HList.nil
        = 6 :=
  ⟨⟨rfl, rfl, rfl, rfl, rfl⟩, fun _ _ _ _ _ _ _ _ => rfl, rfl⟩

/-- C9: evaluation of the generated-overload model at the boundary: the
feature `"32"` identifier list has 29 entries (`_15` is missing from the
source), so the generated `ConcatArgs` impls cover exactly the total arities
1 through 31 — total arity 32 has no generated overload (nor has 0), while
31 does.  This contradicts the claimed ceiling of 32; the feature name and
the otherwise consecutive identifier list show the omission of `_15` is a
slip in the code. -/
theorem concat_args_feature32_totals :
    identList32.length = 29
    ∧ (generatedTotals identList32).contains 32 = false
    ∧ (generatedTotals identList32).contains 0 = false
    ∧ (generatedTotals identList32).all (fun n => decide (n ≤ 31)) = true
    ∧ (generatedTotals identList32).contains 31 = true := by
  decide

/-- C10: the non-consuming binding operations store a reference to the
original callable — `curry`/`rcurry` store `&F`, `curry_mut`/`rcurry_mut`
store `&mut F` — through which the original, unchanged callable is
reachable; rebinding the referent reproduces the same wrapper; invoking the
reference-holding wrapper behaves exactly like invoking the owning wrapper
built by `curry_once`; and only `curry_once`/`rcurry_once` store the
callable itself. -/
theorem nonconsuming_bind_stores_ref {C : Type} {F : Type u} {X : List Type}
    {ρ : Type} (f : F) (arg : C)
    (callF : F → HList ([C] ++ (X ++ [])) → ρ) (args : HList X) :
    (Curry.curry f arg).func = Ref.mk f
    ∧ (Curry.curry_mut f arg).func = MutRef.mk f
    ∧ (RCurry.rcurry f arg).func = Ref.mk f
    ∧ (RCurry.rcurry_mut f arg).func = MutRef.mk f
    ∧ (Curry.curry f arg).func.get = f
    ∧ (Curry.curry_mut f arg).func.get = f
    ∧ (RCurry.rcurry f arg).func.get = f
    ∧ (RCurry.rcurry_mut f arg).func.get = f
    ∧ Curry.curry ((Curry.curry f arg).func.get) arg = Curry.curry f arg
    ∧ Curried.call_once (Ref.call callF) (Curry.curry f arg) args
        = Curried.call_once callF (Curry.curry_once f arg) args
    ∧ (Curry.curry_once f arg).func = f
    ∧ (RCurry.rcurry_once f arg).func = f :=
  ⟨rfl, rfl, rfl, rfl, rfl, rfl, rfl, rfl, rfl, rfl, rfl, rfl⟩

end Currying
